import Mathlib

/-!
Verification development for the hello-http echo server.

The TypeScript sources are shallowly embedded as executable Lean
definitions.  Strings model JavaScript strings; the byte length of a
body chunk is modelled by the character count of the chunk (the code
only compares cumulative lengths against a limit, so the unit is
immaterial to the logic).  JavaScript record objects (string-keyed,
insertion ordered, later assignment to an existing key updates it in
place) are modelled as association lists with the recordSet operation.
External library functions (JSON.parse, jsonwebtoken decode, gzip
inflation) are modelled as parameters of the embedded handler, so every
theorem holds for any behaviour of those collaborators.
-/

namespace HelloHttp

/-- JavaScript whitespace characters relevant to trim and parseInt
(ASCII subset; the inputs in this development are ASCII). -/
def jsWs (c : Char) : Bool :=
  c == ' ' || c == '\t' || c == '\n' || c == '\r' || c == '\x0b' || c == '\x0c'

/-- List-level trim mirroring the JavaScript String.prototype.trim. -/
def trimL (l : List Char) : List Char :=
  ((l.dropWhile jsWs).reverse.dropWhile jsWs).reverse

/-- String-level trim. -/
def trimS (s : String) : String := ⟨trimL s.toList⟩

/-- ASCII lower casing of one character, as String.prototype.toLowerCase
acts on the header values appearing here. -/
def lowerC (c : Char) : Char := c.toLower

/-- ASCII lower casing of a string. -/
def lowerS (s : String) : String := ⟨s.toList.map lowerC⟩

/-- Split a character list on a separator character, mirroring the
JavaScript String.prototype.split with a one-character separator:
the empty input yields one empty field, separators at the edges yield
empty fields. -/
def splitOnC (sep : Char) : List Char → List (List Char)
  | [] => [[]]
  | c :: cs =>
    let r := splitOnC sep cs
    if c == sep then [] :: r
    else
      match r with
      | h :: t => (c :: h) :: t
      | [] => [[c]]

/-- Digit prefix of a character list as a natural number, if nonempty:
the part of JavaScript parseInt that consumes decimal digits. -/
def digitsPrefixVal (l : List Char) : Option Nat :=
  let ds := l.takeWhile Char.isDigit
  if ds.isEmpty then none
  else some (ds.foldl (fun a c => a * 10 + (c.toNat - '0'.toNat)) 0)

/-- JavaScript parseInt(s, 10): skip leading whitespace, an optional
sign, then the longest digit prefix; none models NaN. -/
def jsParseInt (s : String) : Option Int :=
  let l := s.toList.dropWhile jsWs
  match l with
  | '-' :: rest => (digitsPrefixVal rest).map (fun n => -(n : Int))
  | '+' :: rest => (digitsPrefixVal rest).map (fun n => (n : Int))
  | _ => (digitsPrefixVal l).map (fun n => (n : Int))

/-- JavaScript truthiness of an optional string: undefined and the
empty string are falsy. -/
def strTruthyO : Option String → Bool
  | none => false
  | some s => s != ""

/-- JavaScript record assignment r[k] = v on an association list:
an existing key keeps its position and gets the new value, a new key
is appended. -/
def recordSet (m : List (String × String)) (k v : String) : List (String × String) :=
  match m with
  | [] => [(k, v)]
  | (k', v') :: rest =>
    if k' == k then (k, v) :: rest else (k', v') :: recordSet rest k v

/-- Koa ctx.get(name): look the lower-cased name up in the normalized
header record, defaulting to the empty string when absent. -/
def ctxGet (headers : List (String × String)) (name : String) : String :=
  (headers.lookup (lowerS name)).getD ""

/-- Query parameter lookup on the parsed query record; none models a
JavaScript undefined entry. -/
def queryGet (query : List (String × String)) (name : String) : Option String :=
  query.lookup name

/-! ## Body reader (readBody in echo.ts) -/

/-- Accumulator of the data-event handler in readBody: collected
chunks, cumulative byte count, and the exceeded flag. -/
structure ReadAcc where
  chunks : List String
  size : Nat
  exceeded : Bool
  deriving Repr, DecidableEq

/-- One data event of readBody: add the chunk length to the running
size, latch the exceeded flag once the size passes a positive limit,
and append the chunk only while not exceeded. -/
def readStep (maxSize : Nat) (st : ReadAcc) (c : String) : ReadAcc :=
  let size := st.size + c.length
  let exceeded := st.exceeded || (decide (0 < maxSize) && decide (maxSize < size))
  { chunks := if exceeded then st.chunks else st.chunks ++ [c]
    size := size
    exceeded := exceeded }

/-- Total length of a chunk list. -/
def totalLen : List String → Nat
  | [] => 0
  | c :: cs => c.length + totalLen cs

/-- readBody: fold the data events over the whole stream (the stream is
always drained to its end), then settle the promise: a stream error
rejects with that error, an exceeded flag rejects with the size
message, otherwise the concatenated chunks resolve. -/
def readBody (maxSize : Nat) (chunks : List String) (streamErr : Option String) :
    Except String String :=
  let st := chunks.foldl (readStep maxSize) ⟨[], 0, false⟩
  match streamErr with
  | some e => .error e
  | none =>
    if st.exceeded then
      .error ("Body exceeds max size of " ++ toString maxSize ++ " bytes")
    else
      .ok (String.join st.chunks)

/-! ## Cookie parsing (parseCookies in echo.ts) -/

/-- JavaScript String.prototype.indexOf for one character: none models
the minus-one result for an absent character, some i the index of the
first occurrence. -/
def jsIndexOf (c : Char) : List Char → Option Nat
  | [] => none
  | x :: xs => if x == c then some 0 else (jsIndexOf c xs).map (· + 1)

/-- One cookie pair as the source processes it: the JavaScript indexOf
of the equals sign, kept only when that index is strictly positive,
then slices on both sides of it, trimmed. -/
def cookiePairSrc (pair : List Char) : Option (String × String) :=
  match jsIndexOf '=' pair with
  | some idx =>
    if 0 < idx then some (trimS ⟨pair.take idx⟩, trimS ⟨pair.drop (idx + 1)⟩)
    else none
  | none => none

/-- One loop iteration of the cookie parser: assign the surviving pair
into the record. -/
def cookieStep (pairFn : List Char → Option (String × String))
    (acc : List (String × String)) (p : List Char) : List (String × String) :=
  match pairFn p with
  | some (k, v) => recordSet acc k v
  | none => acc

/-- Shared fold skeleton of the cookie parser: split the header on the
separator, process each pair, and assign the survivors into a record. -/
def cookieFold (pairFn : List Char → Option (String × String)) (header : String) :
    List (String × String) :=
  if header == "" then []
  else (splitOnC ';' header.toList).foldl (cookieStep pairFn) []

/-- parseCookies from echo.ts: falsy header yields the empty record,
otherwise split on the semicolon and keep the pairs whose first equals
sign sits at a strictly positive index. -/
def parseCookies (header : String) : List (String × String) :=
  cookieFold cookiePairSrc header

/-- Modelled from the spec sentence of the claim: a pair is dropped
exactly when it contains no equals sign at all; a leading equals sign
yields an empty key. -/
def cookiePairClaimed (pair : List Char) : Option (String × String) :=
  let k := pair.takeWhile (fun c => c != '=')
  if k = pair then none
  else some (trimS ⟨k⟩, trimS ⟨(pair.dropWhile (fun c => c != '=')).tail⟩)

/-- Cookie parser following the claim text word for word. -/
def parseCookiesClaimed (header : String) : List (String × String) :=
  cookieFold cookiePairClaimed header

/-- Amended per-pair rule: a pair is dropped when it has no equals sign
or when its first equals sign is its first character. -/
def cookiePairAmended (pair : List Char) : Option (String × String) :=
  let k := pair.takeWhile (fun c => c != '=')
  if k = pair ∨ k = [] then none
  else some (trimS ⟨k⟩, trimS ⟨(pair.dropWhile (fun c => c != '=')).tail⟩)

/-- Cookie parser following the amended claim. -/
def parseCookiesAmended (header : String) : List (String × String) :=
  cookieFold cookiePairAmended header

/-! ## Header reconstruction (rebuildHeaders in echo.ts) -/

/-- rebuildHeaders: walk the interleaved raw header array two entries
at a time and record-assign each name/value pair. -/
def rebuildHeaders (raw : List String) : List (String × String) :=
  go [] raw
where
  /-- The loop with its record accumulator. -/
  go (acc : List (String × String)) : List String → List (String × String)
    | k :: v :: rest => go (recordSet acc k v) rest
    | _ => acc

/-- Plain pairing of an interleaved name/value list, used to state what
rebuildHeaders produces when the raw names are pairwise distinct. -/
def pairUp : List String → List (String × String)
  | k :: v :: rest => (k, v) :: pairUp rest
  | _ => []

/-! ## Koa response state

Only the parts of the Koa response object that echo.ts touches are
modelled: the status with its explicit flag, and the body.  Setting a
null body switches a non-empty status to 204; setting a non-null body
promotes a never-explicitly-set status to 200.  On respond, an
empty-type status suppresses the body. -/

/-- The echo document of echo.ts, with the JSON and JWT payload types
abstract (they are whatever the external parsers return). -/
structure EchoDoc (J W : Type) where
  path : String
  headers : List (String × String)
  method : String
  body : String
  cookies : List (String × String)
  fresh : Bool
  hostname : String
  ip : String
  ips : List String
  protocol : String
  query : List (String × String)
  subdomains : List String
  xhr : Bool
  osHostname : String
  servername : String
  clientCertificate : Option (List (String × String))
  env : Option (List (String × String))
  json : Option J
  jwt : Option (Option W)
  deriving DecidableEq

/-- A response body value as echo.ts assigns it: never set or null,
a raw string, the JSON error object with one error field, a full echo
document, or the Prometheus scrape text. -/
inductive BodyVal (J W : Type) where
  | nullB
  | str (s : String)
  | errorObj (msg : String)
  | echo (e : EchoDoc J W)
  | metricsText
  deriving DecidableEq

/-- The statuses Koa treats as bodiless (statuses.empty). -/
def emptyStatus (s : Nat) : Bool := s == 204 || s == 205 || s == 304

/-- Koa response state: status code, whether it was set explicitly, and
the body value. -/
structure Ctx (J W : Type) where
  status : Nat
  explicitStatus : Bool
  body : BodyVal J W
  deriving DecidableEq

/-- Fresh Koa context: status 404, nothing explicit, no body. -/
def ctx0 (J W : Type) : Ctx J W := ⟨404, false, .nullB⟩

/-- ctx.status = s. -/
def setStatus (c : Ctx J W) (s : Nat) : Ctx J W :=
  { c with status := s, explicitStatus := true }

/-- ctx.body = v, with the Koa status interactions: a null body forces
204 unless the status is already an empty-type one; a non-null body
sets 200 when no status was explicitly chosen. -/
def setBody (c : Ctx J W) (v : BodyVal J W) : Ctx J W :=
  match v with
  | .nullB =>
    if emptyStatus c.status then { c with body := .nullB }
    else { c with body := .nullB, status := 204, explicitStatus := true }
  | v =>
    { c with body := v
             status := if c.explicitStatus then c.status else 200
             explicitStatus := true }

/-- The body Koa actually writes to the socket: empty-type statuses
send no body. -/
def finalBody (c : Ctx J W) : BodyVal J W :=
  if emptyStatus c.status then .nullB else c.body

/-! ## Echo handler (echoHandler in echo.ts) -/

/-- EchoConfig from echo.ts, together with the module-level state the
handler reads: the MAX_BODY_SIZE constant and the process environment.
The log-ignore regular expression is an abstract predicate on paths. -/
structure EchoConfig where
  echoBackToClient : Bool
  overrideResponseBody : Option String
  preserveHeaderCase : Bool
  includeEnvVars : Bool
  jwtHeader : Option String
  logIgnore : Option (String → Bool)
  maxBodySize : Nat
  procEnv : List (String × String)

/-- An incoming request as the handler observes it through the Koa
context.  The normalized headers carry lower-case names as Node builds
them; rawHeaders is the interleaved name/value array; chunks are the
data events of the request stream, and streamErr a terminal stream
error replacing the end event. -/
structure Request where
  path : String
  method : String
  headers : List (String × String)
  rawHeaders : List String
  query : List (String × String)
  chunks : List String
  streamErr : Option String
  fresh : Bool
  hostname : String
  ip : String
  ips : List String
  protocol : String
  subdomains : List String
  servername : String
  isTls : Bool
  peerCert : List (String × String)

/-- The chunks the promise in readBody consumes: the request stream
itself, or its gunzip image when the content-encoding header says
gzip.  The inflater is an abstract stream transform. -/
def effectiveChunks (gunzip : List String → List String) (req : Request) :
    List String :=
  if ctxGet req.headers "content-encoding" == "gzip" then gunzip req.chunks
  else req.chunks

/-- Koa ctx.is("application/json") on the declared content type: the
media type before any parameters, lower-cased and trimmed. -/
def declaresJson (ct : String) : Bool :=
  trimS ⟨(splitOnC ';' (lowerS ct).toList).headD []⟩ == "application/json"

/-- The header-or-query override source: ctx.get(name) when truthy,
else the query value when truthy, else nothing. -/
def effectiveOverride (req : Request) (name : String) : Option String :=
  let h := ctxGet req.headers name
  if h != "" then some h
  else
    match queryGet req.query name with
    | some q => if q != "" then some q else none
    | none => none

/-- The status override the handler applies: the effective
x-set-response-status-code value, parseInt-ed, kept when it lies in
the interval from 100 up to but excluding 600. -/
def appliedStatusOverride (req : Request) : Option Nat :=
  match effectiveOverride req "x-set-response-status-code" with
  | none => none
  | some s =>
    match jsParseInt s with
    | none => none
    | some n => if 100 ≤ n ∧ n < 600 then some n.toNat else none

/-- The artificial delay the handler awaits: parseInt of the effective
x-set-response-delay-ms value defaulted to "0", when positive. -/
def appliedDelayMs (req : Request) : Int :=
  match jsParseInt ((effectiveOverride req "x-set-response-delay-ms").getD "0") with
  | some n => if 0 < n then n else 0
  | none => 0

/-- The token actually decoded from the configured JWT header: the last
whitespace-separated part, stripping a Bearer-style prefix. -/
def jwtToken (t : String) : String :=
  ⟨(splitOnC ' ' t.toList).getLastD []⟩

/-- Construction of the echo object in echoHandler, field for field. -/
def buildEchoDoc (jsonParse : String → Option J) (jwtDecode : String → Option W)
    (osHostname : String) (cfg : EchoConfig) (req : Request) (body : String) :
    EchoDoc J W :=
  { path := req.path
    headers :=
      if cfg.preserveHeaderCase then rebuildHeaders req.rawHeaders
      else req.headers
    method := req.method
    body := body
    cookies := parseCookies (ctxGet req.headers "cookie")
    fresh := req.fresh
    hostname := req.hostname
    ip := req.ip
    ips := req.ips
    protocol := req.protocol
    query := req.query
    subdomains := req.subdomains
    xhr := lowerS (ctxGet req.headers "x-requested-with") == "xmlhttprequest"
    osHostname := osHostname
    servername := req.servername
    clientCertificate :=
      if req.isTls ∧ req.peerCert ≠ [] then some req.peerCert else none
    env := if cfg.includeEnvVars then some cfg.procEnv else none
    json :=
      if declaresJson (ctxGet req.headers "content-type") then jsonParse body
      else none
    jwt :=
      if strTruthyO cfg.jwtHeader then
        let token := ctxGet req.headers (cfg.jwtHeader.getD "")
        some (if token == "" then none else jwtDecode (jwtToken token))
      else none }

/-- Everything observable about one run of the echo handler: the final
Koa context, the echo document if one was built, whether the request
log line was emitted, the applied delay and the content-type
override. -/
structure EchoResult (J W : Type) where
  ctx : Ctx J W
  builtEcho : Option (EchoDoc J W)
  echoLogged : Bool
  delayMs : Int
  typeOverride : Option String

/-- The middleware returned by echoHandler, run on one request.  The
JSON parser, JWT decoder and gzip inflater are the abstract external
collaborators. -/
def echoHandler (jsonParse : String → Option J) (jwtDecode : String → Option W)
    (gunzip : List String → List String) (osHostname : String)
    (cfg : EchoConfig) (req : Request) : EchoResult J W :=
  if strTruthyO cfg.overrideResponseBody then
    { ctx := setBody (ctx0 J W) (.str (cfg.overrideResponseBody.getD ""))
      builtEcho := none, echoLogged := false, delayMs := 0, typeOverride := none }
  else
    match readBody cfg.maxBodySize (effectiveChunks gunzip req) req.streamErr with
    | .error msg =>
      { ctx := setBody (setStatus (ctx0 J W) 413) (.errorObj msg)
        builtEcho := none, echoLogged := false, delayMs := 0, typeOverride := none }
    | .ok body =>
      let echo := buildEchoDoc jsonParse jwtDecode osHostname cfg req body
      let c1 :=
        match appliedStatusOverride req with
        | some n => setStatus (ctx0 J W) n
        | none => ctx0 J W
      let c2 :=
        if !cfg.echoBackToClient then setBody c1 .nullB
        else if queryGet req.query "response_body_only" == some "true" then
          setBody c1 (.str body)
        else setBody c1 (.echo echo)
      { ctx := c2
        builtEcho := some echo
        echoLogged :=
          match cfg.logIgnore with
          | none => true
          | some p => !(p req.path)
        delayMs := appliedDelayMs req
        typeOverride := effectiveOverride req "x-set-response-content-type" }

/-! ## Application pipeline (createApp in app.ts with metrics.ts) -/

/-- The environment variables createApp and the two modules read at
startup, decoded the way the source decodes them, together with an
abstract read-only file system for the override-response-body file. -/
structure AppEnv where
  disableRequestLogs : Bool
  logIgnore : Option (String → Bool)
  echoBackToClient : Bool
  overrideFilePath : Option String
  preserveHeaderCase : Bool
  includeEnvVars : Bool
  jwtHeader : Option String
  corsOrigin : Option String
  corsMethods : Option String
  corsHeaders : Option String
  corsCredentials : Option String
  prometheusEnabled : Bool
  prometheusPath : String
  promWithPath : Bool
  promWithMethod : Bool
  promWithStatus : Bool
  maxBodySize : Nat
  procEnv : List (String × String)
  fileExists : String → Bool
  fileRead : String → String

/-- The override body pre-read at startup: present exactly when a
truthy path is configured and the file exists. -/
def overrideBodyOf (env : AppEnv) : Option String :=
  match env.overrideFilePath with
  | some p => if p != "" && env.fileExists p then some (env.fileRead p) else none
  | none => none

/-- The EchoConfig createApp hands to echoHandler. -/
def envEchoConfig (env : AppEnv) : EchoConfig :=
  { echoBackToClient := env.echoBackToClient
    overrideResponseBody := overrideBodyOf env
    preserveHeaderCase := env.preserveHeaderCase
    includeEnvVars := env.includeEnvVars
    jwtHeader := env.jwtHeader
    logIgnore := env.logIgnore
    maxBodySize := env.maxBodySize
    procEnv := env.procEnv }

/-- One conditionally set response header. -/
def optHeader (name : String) (v : Option String) : List (String × String) :=
  if strTruthyO v then [(name, v.getD "")] else []

/-- The CORS headers the inline middleware sets on every response it
sees: the allow-origin always, the other three when configured. -/
def corsHeaderList (env : AppEnv) : List (String × String) :=
  [("Access-Control-Allow-Origin", (env.corsOrigin).getD "")]
    ++ optHeader "Access-Control-Allow-Methods" env.corsMethods
    ++ optHeader "Access-Control-Allow-Headers" env.corsHeaders
    ++ optHeader "Access-Control-Allow-Credentials" env.corsCredentials

/-- The label set one histogram observation records, per the three
toggles of metrics.ts, with the status read after downstream ran. -/
def labelsFor (env : AppEnv) (req : Request) (status : Nat) :
    List (String × String) :=
  (if env.promWithPath then [("path", req.path)] else [])
    ++ (if env.promWithMethod then [("method", req.method)] else [])
    ++ (if env.promWithStatus then [("status", toString status)] else [])

/-- The content type prom-client reports for the scrape response. -/
def promContentType : String := "text/plain; version=0.0.4; charset=utf-8"

/-- Whether the access-log middleware emits its line for this request,
once it runs: logging not disabled and the path not ignored. -/
def accessLoggedFor (env : AppEnv) (req : Request) : Bool :=
  !env.disableRequestLogs
    && (match env.logIgnore with
        | none => true
        | some p => !(p req.path))

/-- Everything observable about one request through the whole app:
final Koa context, response headers set by middleware, whether the
access-log line fired, the histogram observations recorded, whether
the scrape endpoint served the request, and the echo handler outputs. -/
structure AppResult (J W : Type) where
  ctx : Ctx J W
  setHeaders : List (String × String)
  accessLogged : Bool
  observations : List (List (String × String))
  servedMetrics : Bool
  builtEcho : Option (EchoDoc J W)
  echoLogged : Bool

/-- The middleware stack of createApp run on one request: the CORS
layer (when configured) short-circuits OPTIONS before the access log,
the metrics layer (when enabled) diverts GET requests on the scrape
path before the histogram timer, and the echo handler is last. -/
def runApp (jsonParse : String → Option J) (jwtDecode : String → Option W)
    (gunzip : List String → List String) (osHostname : String)
    (env : AppEnv) (req : Request) : AppResult J W :=
  let corsActive := strTruthyO env.corsOrigin
  let hdrs := if corsActive then corsHeaderList env else []
  if corsActive && req.method == "OPTIONS" then
    { ctx := setStatus (ctx0 J W) 204
      setHeaders := hdrs
      accessLogged := false
      observations := []
      servedMetrics := false
      builtEcho := none
      echoLogged := false }
  else if env.prometheusEnabled && req.path == env.prometheusPath
      && req.method == "GET" then
    { ctx := setBody (ctx0 J W) .metricsText
      setHeaders := hdrs ++ [("Content-Type", promContentType)]
      accessLogged := accessLoggedFor env req
      observations := []
      servedMetrics := true
      builtEcho := none
      echoLogged := false }
  else
    let er := echoHandler jsonParse jwtDecode gunzip osHostname
      (envEchoConfig env) req
    { ctx := er.ctx
      setHeaders := hdrs
      accessLogged := accessLoggedFor env req
      observations :=
        if env.prometheusEnabled then [labelsFor env req er.ctx.status] else []
      servedMetrics := false
      builtEcho := er.builtEcho
      echoLogged := er.echoLogged }

/-! ## Lemmas about the body reader -/

theorem totalLen_append (l1 l2 : List String) :
    totalLen (l1 ++ l2) = totalLen l1 + totalLen l2 := by
  induction l1 with
  | nil => simp [totalLen]
  | cons c cs ih => simp [totalLen, ih]; omega

theorem readStep_size (maxSize : Nat) (st : ReadAcc) (c : String) :
    (readStep maxSize st c).size = st.size + c.length := rfl

theorem readStep_exceeded (maxSize : Nat) (st : ReadAcc) (c : String)
    (h : st.exceeded = (decide (0 < maxSize) && decide (maxSize < st.size))) :
    (readStep maxSize st c).exceeded
      = (decide (0 < maxSize) && decide (maxSize < st.size + c.length)) := by
  simp only [readStep, h]
  by_cases h1 : 0 < maxSize
  · by_cases h2 : maxSize < st.size
    · have h3 : maxSize < st.size + c.length :=
        Nat.lt_of_lt_of_le h2 (Nat.le_add_right _ _)
      simp [h1, h2, h3]
    · simp [h1, h2]
  · simp [h1]

/-- The data-event fold tracks the full stream length in its size field
and latches the exceeded flag exactly when that length passes a
positive limit: the stream is drained to its end either way. -/
theorem readFold_state (maxSize : Nat) (chunks : List String) (st : ReadAcc)
    (h : st.exceeded = (decide (0 < maxSize) && decide (maxSize < st.size))) :
    (chunks.foldl (readStep maxSize) st).size = st.size + totalLen chunks
    ∧ (chunks.foldl (readStep maxSize) st).exceeded
        = (decide (0 < maxSize) && decide (maxSize < st.size + totalLen chunks)) := by
  induction chunks generalizing st with
  | nil => simpa [totalLen] using h
  | cons c cs ih =>
    have hstep := readStep_exceeded maxSize st c h
    obtain ⟨hs, he⟩ := ih (readStep maxSize st c) hstep
    rw [List.foldl_cons]
    refine ⟨?_, ?_⟩
    · rw [hs, readStep_size]
      simp [totalLen]; omega
    · rw [he, readStep_size]
      have : st.size + c.length + totalLen cs = st.size + totalLen (c :: cs) := by
        simp [totalLen]; omega
      rw [this]

/-- An exceeded flag never resets. -/
theorem readFold_mono (maxSize : Nat) (chunks : List String) (st : ReadAcc)
    (h : st.exceeded = true) :
    (chunks.foldl (readStep maxSize) st).exceeded = true := by
  induction chunks generalizing st with
  | nil => exact h
  | cons c cs ih => exact ih _ (by simp [readStep, h])

/-- While the flag never fired, every chunk was accumulated. -/
theorem readFold_chunks (maxSize : Nat) (chunks : List String) (st : ReadAcc)
    (hfin : (chunks.foldl (readStep maxSize) st).exceeded = false) :
    (chunks.foldl (readStep maxSize) st).chunks = st.chunks ++ chunks := by
  induction chunks generalizing st with
  | nil => simp
  | cons c cs ih =>
    rw [List.foldl_cons] at hfin ⊢
    have hmid : (readStep maxSize st c).exceeded = false := by
      cases hm : (readStep maxSize st c).exceeded
      · rfl
      · rw [readFold_mono maxSize cs _ hm] at hfin
        exact Bool.noConfusion hfin
    have hch : (readStep maxSize st c).chunks = st.chunks ++ [c] := by
      simp only [readStep] at hmid ⊢
      rw [hmid]
      simp
    rw [ih _ hfin, hch]
    simp

/-- Once the limit is positive, the accumulated chunks never hold more
than the limit. -/
theorem readFold_bound (maxSize : Nat) (hpos : 0 < maxSize) (chunks : List String)
    (st : ReadAcc) (h1 : totalLen st.chunks ≤ maxSize)
    (h2 : st.exceeded = false → totalLen st.chunks = st.size) :
    totalLen ((chunks.foldl (readStep maxSize) st).chunks) ≤ maxSize := by
  induction chunks generalizing st with
  | nil => exact h1
  | cons c cs ih =>
    rw [List.foldl_cons]
    cases he : (readStep maxSize st c).exceeded with
    | true =>
      apply ih
      · have hch : (readStep maxSize st c).chunks = st.chunks := by
          simp only [readStep] at he ⊢
          rw [he]
          simp
        rw [hch]; exact h1
      · intro hc
        rw [he] at hc
        exact Bool.noConfusion hc
    | false =>
      have hstf : st.exceeded = false := by
        cases hst : st.exceeded
        · rfl
        · simp [readStep, hst] at he
      have hch : (readStep maxSize st c).chunks = st.chunks ++ [c] := by
        simp only [readStep] at he ⊢
        rw [he]
        simp
      have hsz : st.size + c.length ≤ maxSize := by
        by_contra hgt
        have hlt : maxSize < st.size + c.length := Nat.lt_of_not_le hgt
        simp [readStep, hstf, hpos, hlt] at he
      apply ih
      · rw [hch, totalLen_append, h2 hstf]
        simp only [totalLen]
        omega
      · intro _
        rw [hch, totalLen_append, h2 hstf, readStep_size]
        simp [totalLen]

/-- A stream error rejects the body promise with that error. -/
theorem readBody_err (maxSize : Nat) (chunks : List String) (e : String) :
    readBody maxSize chunks (some e) = .error e := rfl

/-- A drained stream longer than a positive limit rejects with the
size message. -/
theorem readBody_exceeds (maxSize : Nat) (chunks : List String)
    (h1 : 0 < maxSize) (h2 : maxSize < totalLen chunks) :
    readBody maxSize chunks none
      = .error ("Body exceeds max size of " ++ toString maxSize ++ " bytes") := by
  have hinit : (ReadAcc.mk [] 0 false).exceeded
      = (decide (0 < maxSize) && decide (maxSize < (ReadAcc.mk [] 0 false).size)) := by
    simp
  have hex := (readFold_state maxSize chunks _ hinit).2
  simp only [readBody]
  rw [hex]
  simp [h1, h2]

/-- A drained stream within the limit resolves to the concatenation of
all its chunks. -/
theorem readBody_ok (maxSize : Nat) (chunks : List String)
    (h : maxSize = 0 ∨ totalLen chunks ≤ maxSize) :
    readBody maxSize chunks none = .ok (String.join chunks) := by
  have hinit : (ReadAcc.mk [] 0 false).exceeded
      = (decide (0 < maxSize) && decide (maxSize < (ReadAcc.mk [] 0 false).size)) := by
    simp
  have hex := (readFold_state maxSize chunks _ hinit).2
  have hfalse : (chunks.foldl (readStep maxSize) (ReadAcc.mk [] 0 false)).exceeded
      = false := by
    rw [hex]
    rcases h with h | h
    · simp [h]
    · simp
      intro _
      omega
  have hch := readFold_chunks maxSize chunks _ hfalse
  simp only [readBody]
  rw [hfalse]
  simp only [Bool.false_eq_true, if_false]
  rw [hch]
  simp

/-! ## Concrete fixtures for witnesses -/

/-- Trivial external parser collaborator for concrete runs. -/
def noParse : String → Option Unit := fun _ => none

/-- Identity gzip inflater for concrete runs. -/
def idGunzip : List String → List String := fun l => l

/-- A minimal concrete plain-HTTP request fixture. -/
def baseReq : Request :=
  { path := "/test"
    method := "POST"
    headers := []
    rawHeaders := []
    query := []
    chunks := []
    streamErr := none
    fresh := false
    hostname := "localhost"
    ip := "127.0.0.1"
    ips := []
    protocol := "http"
    subdomains := []
    servername := ""
    isTls := false
    peerCert := [] }

/-- The default echo configuration fixture (all toggles at their
defaults, the stock one-megabyte limit). -/
def baseCfg : EchoConfig :=
  { echoBackToClient := true
    overrideResponseBody := none
    preserveHeaderCase := false
    includeEnvVars := false
    jwtHeader := none
    logIgnore := none
    maxBodySize := 1048576
    procEnv := [] }

/-- The default configuration with a five-byte body limit. -/
def cfg5 : EchoConfig := { baseCfg with maxBodySize := 5 }

/-- A request carrying a ten-byte body. -/
def reqBig : Request := { baseReq with chunks := ["0123456789"] }

/-! ## C1 -/

/-- C1: for every request reaching the body reader (no override
bypass, no stream error) whose post-decompression body length exceeds
a positive configured MAX_BODY_SIZE, the reader drains the stream to
completion (its size counter reaches the full stream length) while
accumulating no more than the limit, the response status is 413 with
the JSON error object whose message contains the configured max size,
and no echo document is constructed. -/
theorem C1_body_limit_413 {J W : Type} (jsonParse : String → Option J)
    (jwtDecode : String → Option W) (gunzip : List String → List String)
    (osHostname : String) (cfg : EchoConfig) (req : Request)
    (hov : strTruthyO cfg.overrideResponseBody = false)
    (herr : req.streamErr = none)
    (hpos : 0 < cfg.maxBodySize)
    (hbig : cfg.maxBodySize < totalLen (effectiveChunks gunzip req)) :
    (echoHandler jsonParse jwtDecode gunzip osHostname cfg req).ctx.status = 413
    ∧ (echoHandler jsonParse jwtDecode gunzip osHostname cfg req).ctx.body
        = .errorObj ("Body exceeds max size of " ++ toString cfg.maxBodySize ++ " bytes")
    ∧ (∃ pre post, "Body exceeds max size of " ++ toString cfg.maxBodySize ++ " bytes"
        = pre ++ toString cfg.maxBodySize ++ post)
    ∧ (echoHandler jsonParse jwtDecode gunzip osHostname cfg req).builtEcho = none
    ∧ ((effectiveChunks gunzip req).foldl (readStep cfg.maxBodySize) ⟨[], 0, false⟩).size
        = totalLen (effectiveChunks gunzip req)
    ∧ totalLen (((effectiveChunks gunzip req).foldl (readStep cfg.maxBodySize)
        ⟨[], 0, false⟩).chunks) ≤ cfg.maxBodySize := by
  have hrb := readBody_exceeds cfg.maxBodySize (effectiveChunks gunzip req) hpos hbig
  have hmain : echoHandler jsonParse jwtDecode gunzip osHostname cfg req =
      { ctx := setBody (setStatus (ctx0 J W) 413)
          (.errorObj ("Body exceeds max size of " ++ toString cfg.maxBodySize ++ " bytes"))
        builtEcho := none
        echoLogged := false
        delayMs := 0
        typeOverride := none } := by
    rw [echoHandler, hov, herr, hrb]
    simp
  have hinit : (ReadAcc.mk [] 0 false).exceeded
      = (decide (0 < cfg.maxBodySize)
          && decide (cfg.maxBodySize < (ReadAcc.mk [] 0 false).size)) := by
    simp
  refine ⟨?_, ?_, ⟨"Body exceeds max size of ", " bytes", rfl⟩, ?_, ?_, ?_⟩
  · rw [hmain]; rfl
  · rw [hmain]; rfl
  · rw [hmain]
  · simpa using (readFold_state cfg.maxBodySize (effectiveChunks gunzip req) _ hinit).1
  · exact readFold_bound cfg.maxBodySize hpos (effectiveChunks gunzip req) _
      (by simp [totalLen]) (fun _ => rfl)

/-- Witness for C1 at a concrete oversized request. -/
theorem C1_body_limit_413_witness :
    (strTruthyO cfg5.overrideResponseBody = false
      ∧ reqBig.streamErr = none
      ∧ 0 < cfg5.maxBodySize
      ∧ cfg5.maxBodySize < totalLen (effectiveChunks idGunzip reqBig))
    ∧ ((echoHandler noParse noParse idGunzip "srv" cfg5 reqBig).ctx.status = 413
      ∧ (echoHandler noParse noParse idGunzip "srv" cfg5 reqBig).ctx.body
          = .errorObj ("Body exceeds max size of " ++ toString cfg5.maxBodySize ++ " bytes")
      ∧ (∃ pre post, "Body exceeds max size of " ++ toString cfg5.maxBodySize ++ " bytes"
          = pre ++ toString cfg5.maxBodySize ++ post)
      ∧ (echoHandler noParse noParse idGunzip "srv" cfg5 reqBig).builtEcho = none
      ∧ ((effectiveChunks idGunzip reqBig).foldl (readStep cfg5.maxBodySize) ⟨[], 0, false⟩).size
          = totalLen (effectiveChunks idGunzip reqBig)
      ∧ totalLen (((effectiveChunks idGunzip reqBig).foldl (readStep cfg5.maxBodySize)
          ⟨[], 0, false⟩).chunks) ≤ cfg5.maxBodySize) :=
  ⟨⟨rfl, rfl, by decide, by decide⟩,
    C1_body_limit_413 noParse noParse idGunzip "srv" cfg5 reqBig rfl rfl
      (by decide) (by decide)⟩

/-- Every request completing its body read within the limit and
carrying no in-range status override ends with a 2xx status, whatever
the JSON parser, JWT decoder, gzip inflater and the rest of the
configuration do. -/
theorem echo_status_2xx {J W : Type} (jsonParse : String → Option J)
    (jwtDecode : String → Option W) (gunzip : List String → List String)
    (osHostname : String) (cfg : EchoConfig) (req : Request)
    (herr : req.streamErr = none)
    (hsz : cfg.maxBodySize = 0
      ∨ totalLen (effectiveChunks gunzip req) ≤ cfg.maxBodySize)
    (hso : appliedStatusOverride req = none) :
    200 ≤ (echoHandler jsonParse jwtDecode gunzip osHostname cfg req).ctx.status
    ∧ (echoHandler jsonParse jwtDecode gunzip osHostname cfg req).ctx.status < 300 := by
  cases hov : strTruthyO cfg.overrideResponseBody
  · have hrb := readBody_ok cfg.maxBodySize (effectiveChunks gunzip req) hsz
    rw [echoHandler, hov, herr, hrb]
    simp only [Bool.false_eq_true, if_false]
    rw [hso]
    cases hecho : cfg.echoBackToClient
    · simp [setBody, ctx0, emptyStatus]
    · simp only [Bool.not_true, Bool.false_eq_true, if_false]
      split
      · exact ⟨by simp [setBody, ctx0], by simp [setBody, ctx0]⟩
      · exact ⟨by simp [setBody, ctx0], by simp [setBody, ctx0]⟩
  · rw [echoHandler, hov]
    simp [setBody, ctx0]

/-! ## C2 -/

/-- C2: for every request whose post-decompression body is within the
limit (and that reaches the echo path), the echo document's body field
is exactly the concatenated stream; when the content type declares
JSON the json field is exactly what the JSON parser returns on that
body (the parsed structure when it parses, absent when it does not);
without a JSON content type the json field is absent; and with no
status override the request succeeds with a 2xx status whatever the
parser returned. -/
theorem C2_echo_body_exact {J W : Type} (jsonParse : String → Option J)
    (jwtDecode : String → Option W) (gunzip : List String → List String)
    (osHostname : String) (cfg : EchoConfig) (req : Request)
    (hov : strTruthyO cfg.overrideResponseBody = false)
    (herr : req.streamErr = none)
    (hsz : cfg.maxBodySize = 0
      ∨ totalLen (effectiveChunks gunzip req) ≤ cfg.maxBodySize) :
    ∃ e, (echoHandler jsonParse jwtDecode gunzip osHostname cfg req).builtEcho = some e
      ∧ e.body = String.join (effectiveChunks gunzip req)
      ∧ (declaresJson (ctxGet req.headers "content-type") = true →
          e.json = jsonParse (String.join (effectiveChunks gunzip req)))
      ∧ (declaresJson (ctxGet req.headers "content-type") = false → e.json = none)
      ∧ (appliedStatusOverride req = none →
          200 ≤ (echoHandler jsonParse jwtDecode gunzip osHostname cfg req).ctx.status
          ∧ (echoHandler jsonParse jwtDecode gunzip osHostname cfg req).ctx.status < 300) := by
  have hrb := readBody_ok cfg.maxBodySize (effectiveChunks gunzip req) hsz
  refine ⟨buildEchoDoc jsonParse jwtDecode osHostname cfg req
    (String.join (effectiveChunks gunzip req)), ?_, ?_, ?_, ?_, ?_⟩
  · rw [echoHandler, hov, herr, hrb]
    simp
  · rfl
  · intro h
    simp [buildEchoDoc, h]
  · intro h
    simp [buildEchoDoc, h]
  · intro hso
    exact echo_status_2xx jsonParse jwtDecode gunzip osHostname cfg req herr hsz hso

/-- A request declaring a JSON content type with a small body. -/
def reqJson : Request :=
  { baseReq with
    headers := [("content-type", "application/json")]
    chunks := ["[1,", "2]"] }

/-- External JSON parser collaborator for the C2 witness: succeeds on
every input with the input itself as the parse. -/
def echoingParse : String → Option String := fun s => some s

/-- Witness for C2 at a concrete JSON request. -/
theorem C2_echo_body_exact_witness :
    (strTruthyO baseCfg.overrideResponseBody = false
      ∧ reqJson.streamErr = none
      ∧ (baseCfg.maxBodySize = 0
          ∨ totalLen (effectiveChunks idGunzip reqJson) ≤ baseCfg.maxBodySize))
    ∧ (∃ e, (echoHandler echoingParse noParse idGunzip "srv" baseCfg reqJson).builtEcho
          = some e
        ∧ e.body = String.join (effectiveChunks idGunzip reqJson)
        ∧ (declaresJson (ctxGet reqJson.headers "content-type") = true →
            e.json = echoingParse (String.join (effectiveChunks idGunzip reqJson)))
        ∧ (declaresJson (ctxGet reqJson.headers "content-type") = false → e.json = none)
        ∧ (appliedStatusOverride reqJson = none →
            200 ≤ (echoHandler echoingParse noParse idGunzip "srv" baseCfg reqJson).ctx.status
            ∧ (echoHandler echoingParse noParse idGunzip "srv" baseCfg reqJson).ctx.status < 300)) :=
  ⟨⟨rfl, rfl, Or.inr (by decide)⟩,
    C2_echo_body_exact echoingParse noParse idGunzip "srv" baseCfg reqJson rfl rfl
      (Or.inr (by decide))⟩

/-! ## C3 -/

/-- A request whose stream fails mid-read. -/
def reqErr : Request := { baseReq with streamErr := some "boom" }

/-- C3 counterexample: a stream read error does not degrade gracefully
as the claim states; the code answers it with a 413 error response
(non-2xx) and builds no echo document. -/
theorem C3_stream_error_fails_request :
    (echoHandler noParse noParse idGunzip "srv" baseCfg reqErr).ctx.status = 413
    ∧ (echoHandler noParse noParse idGunzip "srv" baseCfg reqErr).ctx.body
        = .errorObj "boom"
    ∧ ¬(200 ≤ (echoHandler noParse noParse idGunzip "srv" baseCfg reqErr).ctx.status
        ∧ (echoHandler noParse noParse idGunzip "srv" baseCfg reqErr).ctx.status < 300)
    ∧ (echoHandler noParse noParse idGunzip "srv" baseCfg reqErr).builtEcho = none := by
  decide

/-- C3 amended: the only conditions producing a non-2xx status from
this component are body-read failures, namely the body-size violation
and stream read errors, both answered with 413 and a JSON error body;
JSON parse failures and JWT decoding degrade gracefully, leaving the
status 2xx whatever those parsers return. -/
theorem C3_only_read_failures_non2xx :
    (∀ (J W : Type) (jsonParse : String → Option J) (jwtDecode : String → Option W)
      (gunzip : List String → List String) (osHostname : String)
      (cfg : EchoConfig) (req : Request),
      req.streamErr = none →
      (cfg.maxBodySize = 0 ∨ totalLen (effectiveChunks gunzip req) ≤ cfg.maxBodySize) →
      appliedStatusOverride req = none →
      200 ≤ (echoHandler jsonParse jwtDecode gunzip osHostname cfg req).ctx.status
      ∧ (echoHandler jsonParse jwtDecode gunzip osHostname cfg req).ctx.status < 300)
    ∧ (∀ (J W : Type) (jsonParse : String → Option J) (jwtDecode : String → Option W)
      (gunzip : List String → List String) (osHostname : String)
      (cfg : EchoConfig) (req : Request) (e : String),
      strTruthyO cfg.overrideResponseBody = false →
      req.streamErr = some e →
      (echoHandler jsonParse jwtDecode gunzip osHostname cfg req).ctx.status = 413
      ∧ (echoHandler jsonParse jwtDecode gunzip osHostname cfg req).ctx.body
          = .errorObj e) := by
  constructor
  · intro J W jsonParse jwtDecode gunzip osHostname cfg req herr hsz hso
    exact echo_status_2xx jsonParse jwtDecode gunzip osHostname cfg req herr hsz hso
  · intro J W jsonParse jwtDecode gunzip osHostname cfg req e hov herr
    rw [echoHandler, hov, herr, readBody_err]
    exact ⟨rfl, rfl⟩

/-- Witness for C3 at concrete graceful and stream-error requests. -/
theorem C3_only_read_failures_non2xx_witness :
    (baseReq.streamErr = none
      ∧ appliedStatusOverride baseReq = none
      ∧ 200 ≤ (echoHandler noParse noParse idGunzip "srv" baseCfg baseReq).ctx.status
      ∧ (echoHandler noParse noParse idGunzip "srv" baseCfg baseReq).ctx.status < 300)
    ∧ (strTruthyO baseCfg.overrideResponseBody = false
      ∧ reqErr.streamErr = some "boom"
      ∧ (echoHandler noParse noParse idGunzip "srv" baseCfg reqErr).ctx.status = 413
      ∧ (echoHandler noParse noParse idGunzip "srv" baseCfg reqErr).ctx.body
          = .errorObj "boom") :=
  ⟨⟨rfl, rfl,
    C3_only_read_failures_non2xx.1 Unit Unit noParse noParse idGunzip "srv"
      baseCfg baseReq rfl (Or.inr (by decide)) rfl⟩,
   ⟨rfl, rfl,
    C3_only_read_failures_non2xx.2 Unit Unit noParse noParse idGunzip "srv"
      baseCfg reqErr "boom" rfl rfl⟩⟩

/-! ## C4 -/

/-- Echo-back disabled together with a configured override body. -/
def cfgOverrideNoEcho : EchoConfig :=
  { baseCfg with echoBackToClient := false, overrideResponseBody := some "ok" }

/-- C4 counterexample: with ECHO_BACK_TO_CLIENT false but an override
response body configured, the response body is the override content,
not empty — the bypass does not consult the echo-back toggle. -/
theorem C4_override_beats_echo_off :
    cfgOverrideNoEcho.echoBackToClient = false
    ∧ finalBody (echoHandler noParse noParse idGunzip "srv" cfgOverrideNoEcho baseReq).ctx
        = .str "ok"
    ∧ finalBody (echoHandler noParse noParse idGunzip "srv" cfgOverrideNoEcho baseReq).ctx
        ≠ .nullB := by
  decide

/-- C4 amended: with ECHO_BACK_TO_CLIENT false, every response served
by the normal echo path (no override bypass taken and the body read
succeeded) has an empty body, regardless of all other settings. -/
theorem C4_echo_off_empty_body {J W : Type} (jsonParse : String → Option J)
    (jwtDecode : String → Option W) (gunzip : List String → List String)
    (osHostname : String) (cfg : EchoConfig) (req : Request)
    (hov : strTruthyO cfg.overrideResponseBody = false)
    (herr : req.streamErr = none)
    (hsz : cfg.maxBodySize = 0
      ∨ totalLen (effectiveChunks gunzip req) ≤ cfg.maxBodySize)
    (hecho : cfg.echoBackToClient = false) :
    (echoHandler jsonParse jwtDecode gunzip osHostname cfg req).ctx.body = .nullB
    ∧ finalBody (echoHandler jsonParse jwtDecode gunzip osHostname cfg req).ctx
        = .nullB := by
  have hb : ∀ c : Ctx J W, (setBody c .nullB).body = .nullB := by
    intro c
    simp only [setBody]
    split <;> rfl
  have hfb : ∀ c : Ctx J W, c.body = .nullB → finalBody c = .nullB := by
    intro c h
    simp only [finalBody]
    split
    · rfl
    · exact h
  have hrb := readBody_ok cfg.maxBodySize (effectiveChunks gunzip req) hsz
  rw [echoHandler, hov, herr, hrb, hecho]
  simp only [Bool.false_eq_true, if_false, Bool.not_false, if_true]
  exact ⟨hb _, hfb _ (hb _)⟩

/-- Echo-back disabled, no override body. -/
def cfgNoEcho : EchoConfig := { baseCfg with echoBackToClient := false }

/-- Witness for the amended C4 at a concrete request. -/
theorem C4_echo_off_empty_body_witness :
    (strTruthyO cfgNoEcho.overrideResponseBody = false
      ∧ baseReq.streamErr = none
      ∧ cfgNoEcho.echoBackToClient = false)
    ∧ ((echoHandler noParse noParse idGunzip "srv" cfgNoEcho baseReq).ctx.body = .nullB
      ∧ finalBody (echoHandler noParse noParse idGunzip "srv" cfgNoEcho baseReq).ctx
          = .nullB) :=
  ⟨⟨rfl, rfl, rfl⟩,
    C4_echo_off_empty_body noParse noParse idGunzip "srv" cfgNoEcho baseReq
      rfl rfl (Or.inr (by decide)) rfl⟩

/-! ## C5 -/

/-- Record assignment of a fresh key appends it, keeping order. -/
theorem recordSet_fresh (m : List (String × String)) (k v : String)
    (h : k ∉ m.map Prod.fst) : recordSet m k v = m ++ [(k, v)] := by
  induction m with
  | nil => rfl
  | cons p rest ih =>
    obtain ⟨k', v'⟩ := p
    simp only [List.map_cons, List.mem_cons] at h
    push_neg at h
    simp only [recordSet]
    rw [if_neg, ih h.2]
    · simp
    · intro hbeq
      exact h.1 (beq_iff_eq.mp hbeq).symm

/-- On a raw list whose names are pairwise distinct, the rebuild loop
appends exactly the interleaved pairs in order. -/
theorem rebuildHeaders_go_pairUp (raw : List String) :
    ∀ acc : List (String × String),
      (∀ k ∈ (pairUp raw).map Prod.fst, k ∉ acc.map Prod.fst) →
      ((pairUp raw).map Prod.fst).Nodup →
      rebuildHeaders.go acc raw = acc ++ pairUp raw := by
  induction raw using pairUp.induct with
  | case1 k v rest ih =>
    intro acc hfresh hnodup
    simp only [pairUp, List.map_cons, List.nodup_cons] at hfresh hnodup ⊢
    have hk : k ∉ acc.map Prod.fst := hfresh k (by simp)
    rw [rebuildHeaders.go, recordSet_fresh acc k v hk]
    rw [ih (acc ++ [(k, v)]) ?_ hnodup.2]
    · simp
    · intro k' hk'
      simp only [List.map_append, List.mem_append]
      push_neg
      refine ⟨hfresh k' (List.mem_cons.mpr (Or.inr hk')), ?_⟩
      simp only [List.map_cons, List.map_nil, List.mem_singleton]
      intro hkk
      exact hnodup.1 (hkk ▸ hk')
  | case2 l h1 =>
    intro acc _ _
    match l, h1 with
    | [], _ => simp [pairUp, rebuildHeaders.go]
    | [k], _ => simp [pairUp, rebuildHeaders.go]
    | k :: v :: rest, h1 => exact (h1 k v rest rfl).elim

/-- C5: the echo document's headers are rebuilt from the raw
interleaved name/value sequence when header-case preservation is
enabled and are the normalized lowercase mapping otherwise; on
distinct raw names the rebuild reproduces exactly the raw pairs in
their original casing and order. -/
theorem C5_headers_dispatch {J W : Type} (jsonParse : String → Option J)
    (jwtDecode : String → Option W) (gunzip : List String → List String)
    (osHostname : String) (cfg : EchoConfig) (req : Request)
    (hov : strTruthyO cfg.overrideResponseBody = false)
    (herr : req.streamErr = none)
    (hsz : cfg.maxBodySize = 0
      ∨ totalLen (effectiveChunks gunzip req) ≤ cfg.maxBodySize) :
    ∃ e, (echoHandler jsonParse jwtDecode gunzip osHostname cfg req).builtEcho = some e
      ∧ e.headers
          = (if cfg.preserveHeaderCase then rebuildHeaders req.rawHeaders
            else req.headers)
      ∧ (∀ raw : List String, ((pairUp raw).map Prod.fst).Nodup →
          rebuildHeaders raw = pairUp raw) := by
  have hrb := readBody_ok cfg.maxBodySize (effectiveChunks gunzip req) hsz
  refine ⟨buildEchoDoc jsonParse jwtDecode osHostname cfg req
    (String.join (effectiveChunks gunzip req)), ?_, rfl, ?_⟩
  · rw [echoHandler, hov, herr, hrb]
    simp
  · intro raw hnodup
    rw [rebuildHeaders, rebuildHeaders_go_pairUp raw [] (by simp) hnodup]
    simp

/-- Header-case preservation enabled. -/
def cfgPreserve : EchoConfig := { baseCfg with preserveHeaderCase := true }

/-- A request with mixed-case raw headers. -/
def reqRaw : Request :=
  { baseReq with rawHeaders := ["Host", "example.test", "X-Foo", "Bar"] }

/-- Witness for C5 at a concrete mixed-case request. -/
theorem C5_headers_dispatch_witness :
    (strTruthyO cfgPreserve.overrideResponseBody = false
      ∧ reqRaw.streamErr = none)
    ∧ (∃ e, (echoHandler noParse noParse idGunzip "srv" cfgPreserve reqRaw).builtEcho
          = some e
        ∧ e.headers
            = (if cfgPreserve.preserveHeaderCase then rebuildHeaders reqRaw.rawHeaders
              else reqRaw.headers)
        ∧ (∀ raw : List String, ((pairUp raw).map Prod.fst).Nodup →
            rebuildHeaders raw = pairUp raw)) :=
  ⟨⟨rfl, rfl⟩,
    C5_headers_dispatch noParse noParse idGunzip "srv" cfgPreserve reqRaw
      rfl rfl (Or.inr (by decide))⟩

/-! ## C6 -/

/-- When indexOf finds no equals sign, the not-equals prefix is the
whole pair. -/
theorem jsIndexOf_none_takeWhile (l : List Char)
    (h : jsIndexOf '=' l = none) : l.takeWhile (fun c => c != '=') = l := by
  induction l with
  | nil => rfl
  | cons x xs ih =>
    cases hx : x == '=' with
    | true => simp [jsIndexOf, hx] at h
    | false =>
      simp only [jsIndexOf, hx, Bool.false_eq_true, if_false,
        Option.map_eq_none'] at h
      have hbx : (x != '=') = true := by simp [bne, hx]
      simp only [List.takeWhile_cons, hbx, if_true]
      rw [ih h]

/-- When indexOf finds the first equals sign at index i, the
not-equals prefix is the take of i, the rest after dropWhile and tail
is the drop past i, and the prefix is proper. -/
theorem jsIndexOf_some_facts (l : List Char) (i : Nat)
    (h : jsIndexOf '=' l = some i) :
    l.takeWhile (fun c => c != '=') = l.take i
    ∧ (l.dropWhile (fun c => c != '=')).tail = l.drop (i + 1)
    ∧ l.takeWhile (fun c => c != '=') ≠ l := by
  induction l generalizing i with
  | nil => cases h
  | cons x xs ih =>
    cases hx : x == '=' with
    | true =>
      simp only [jsIndexOf, hx, if_true] at h
      obtain rfl : i = 0 := (Option.some_inj.mp h).symm
      refine ⟨?_, ?_, ?_⟩
      · simp [List.takeWhile_cons, bne, hx]
      · simp [List.dropWhile_cons, bne, hx]
      · simp [List.takeWhile_cons, bne, hx]
    | false =>
      simp only [jsIndexOf, hx, Bool.false_eq_true, if_false,
        Option.map_eq_some'] at h
      obtain ⟨j, hj, hij⟩ := h
      obtain ⟨h1, h2, h3⟩ := ih j hj
      subst hij
      have hbx : (x != '=') = true := by simp [bne, hx]
      refine ⟨?_, ?_, ?_⟩
      · simp only [List.takeWhile_cons, hbx, if_true, List.take_succ_cons]
        rw [h1]
      · simp only [List.dropWhile_cons, hbx, if_true, List.drop_succ_cons]
        exact h2
      · simp only [List.takeWhile_cons, hbx, if_true]
        intro hc
        injection hc with _ hc'
        exact h3 hc'

/-- The per-pair rule of the source equals the amended per-pair rule. -/
theorem cookiePairSrc_eq_amended (pair : List Char) :
    cookiePairSrc pair = cookiePairAmended pair := by
  cases hj : jsIndexOf '=' pair with
  | none =>
    have ht := jsIndexOf_none_takeWhile pair hj
    simp only [cookiePairSrc, hj, cookiePairAmended]
    rw [if_pos (Or.inl ht)]
  | some i =>
    obtain ⟨h1, h2, h3⟩ := jsIndexOf_some_facts pair i hj
    simp only [cookiePairSrc, hj, cookiePairAmended]
    cases i with
    | zero =>
      rw [if_neg (by omega), if_pos (Or.inr (by rw [h1]; rfl))]
    | succ n =>
      have hpair : pair ≠ [] := by
        intro hnil
        rw [hnil] at hj
        cases hj
      have hknil : pair.takeWhile (fun c => c != '=') ≠ [] := by
        rw [h1]
        cases pair with
        | nil => exact absurd rfl hpair
        | cons y ys => simp [List.take]
      rw [if_pos (Nat.succ_pos n), if_neg (by push_neg; exact ⟨h3, hknil⟩)]
      rw [h1, h2]

/-- The cookie fold only depends on the per-pair rule. -/
theorem cookieFold_congr (f g : List Char → Option (String × String))
    (h : ∀ p, f p = g p) (header : String) :
    cookieFold f header = cookieFold g header := by
  unfold cookieFold
  split
  · rfl
  · have go : ∀ (ps : List (List Char)) (acc : List (String × String)),
        ps.foldl (cookieStep f) acc = ps.foldl (cookieStep g) acc := by
      intro ps
      induction ps with
      | nil => intro acc; rfl
      | cons p rest ih =>
        intro acc
        simp only [List.foldl_cons]
        rw [show cookieStep f acc p = cookieStep g acc p from by
          simp [cookieStep, h p]]
        exact ih _
    exact go _ _

/-- C6 counterexample: the pair "=abc" contains an equals sign, yet
the code drops it (its index is not strictly positive), while the
claimed rule keeps it under the empty key. -/
theorem C6_leading_eq_pair_dropped :
    parseCookies "=abc" = []
    ∧ parseCookiesClaimed "=abc" = [("", "abc")]
    ∧ parseCookies "=abc" ≠ parseCookiesClaimed "=abc" := by
  decide

/-- C6 amended: the cookie mapping is obtained by splitting on the
semicolon, splitting each pair at its first equals sign and trimming;
dropped are exactly the pairs with no equals sign or whose first
equals sign is their first character (empty raw key); in particular
the documented example parses as claimed. -/
theorem C6_cookie_parse_amended :
    (∀ header : String, parseCookies header = parseCookiesAmended header)
    ∧ parseCookies "session=abc123; theme=dark"
        = [("session", "abc123"), ("theme", "dark")] := by
  refine ⟨?_, by decide⟩
  intro header
  exact cookieFold_congr cookiePairSrc cookiePairAmended
    cookiePairSrc_eq_amended header

/-! ## C7 -/

/-- An oversized request also asking for status 418. -/
def req418big : Request :=
  { baseReq with
    chunks := ["0123456789"]
    headers := [("x-set-response-status-code", "418")] }

/-- C7 counterexample: a request whose body exceeds the limit carries
an in-range status override, yet the response status is 413, not the
override — the override does not govern every request. -/
theorem C7_override_ignored_on_413 :
    appliedStatusOverride req418big = some 418
    ∧ (echoHandler noParse noParse idGunzip "srv" cfg5 req418big).ctx.status = 413
    ∧ (echoHandler noParse noParse idGunzip "srv" cfg5 req418big).ctx.status ≠ 418 := by
  decide

/-- C7 amended: for every request served by the normal echo path (no
override bypass, body within the limit, echo-back enabled), the
response status equals the x-set-response-status-code value (header
checked before the query parameter) exactly when it parseInt-parses
into the interval from 100 up to but excluding 600, and is the default
200 otherwise. -/
theorem C7_status_override_normal_path {J W : Type} (jsonParse : String → Option J)
    (jwtDecode : String → Option W) (gunzip : List String → List String)
    (osHostname : String) (cfg : EchoConfig) (req : Request)
    (hov : strTruthyO cfg.overrideResponseBody = false)
    (herr : req.streamErr = none)
    (hsz : cfg.maxBodySize = 0
      ∨ totalLen (effectiveChunks gunzip req) ≤ cfg.maxBodySize)
    (hecho : cfg.echoBackToClient = true) :
    (echoHandler jsonParse jwtDecode gunzip osHostname cfg req).ctx.status
      = (match appliedStatusOverride req with
        | some n => n
        | none => 200) := by
  have hrb := readBody_ok cfg.maxBodySize (effectiveChunks gunzip req) hsz
  rw [echoHandler, hov, herr, hrb, hecho]
  simp only [Bool.false_eq_true, if_false, Bool.not_true]
  cases hso : appliedStatusOverride req with
  | some n =>
    split
    · simp [setBody, setStatus, ctx0]
    · simp [setBody, setStatus, ctx0]
  | none =>
    split
    · simp [setBody, ctx0]
    · simp [setBody, ctx0]

/-- A request asking for status 418 through the header. -/
def req418 : Request :=
  { baseReq with headers := [("x-set-response-status-code", "418")] }

/-- Witness for the amended C7 at a concrete 418 override. -/
theorem C7_status_override_normal_path_witness :
    (strTruthyO baseCfg.overrideResponseBody = false
      ∧ req418.streamErr = none
      ∧ baseCfg.echoBackToClient = true)
    ∧ (echoHandler noParse noParse idGunzip "srv" baseCfg req418).ctx.status
        = (match appliedStatusOverride req418 with
          | some n => n
          | none => 200) :=
  ⟨⟨rfl, rfl, rfl⟩,
    C7_status_override_normal_path noParse noParse idGunzip "srv" baseCfg req418
      rfl rfl (Or.inr (by decide)) rfl⟩

/-! ## C8 -/

/-- C8: with a truthy CORS allow-origin configured, every OPTIONS
request is answered 204 with no body and the configured CORS headers,
and no downstream component runs: no echo document is built or logged,
no access-log line fires, no histogram observation is recorded. -/
theorem C8_cors_options_short_circuit {J W : Type} (jsonParse : String → Option J)
    (jwtDecode : String → Option W) (gunzip : List String → List String)
    (osHostname : String) (env : AppEnv) (req : Request)
    (ho : strTruthyO env.corsOrigin = true)
    (hm : req.method = "OPTIONS") :
    (runApp jsonParse jwtDecode gunzip osHostname env req).ctx.status = 204
    ∧ finalBody (runApp jsonParse jwtDecode gunzip osHostname env req).ctx = .nullB
    ∧ ("Access-Control-Allow-Origin", env.corsOrigin.getD "")
        ∈ (runApp jsonParse jwtDecode gunzip osHostname env req).setHeaders
    ∧ (strTruthyO env.corsMethods = true →
        ("Access-Control-Allow-Methods", env.corsMethods.getD "")
          ∈ (runApp jsonParse jwtDecode gunzip osHostname env req).setHeaders)
    ∧ (strTruthyO env.corsHeaders = true →
        ("Access-Control-Allow-Headers", env.corsHeaders.getD "")
          ∈ (runApp jsonParse jwtDecode gunzip osHostname env req).setHeaders)
    ∧ (strTruthyO env.corsCredentials = true →
        ("Access-Control-Allow-Credentials", env.corsCredentials.getD "")
          ∈ (runApp jsonParse jwtDecode gunzip osHostname env req).setHeaders)
    ∧ (runApp jsonParse jwtDecode gunzip osHostname env req).builtEcho = none
    ∧ (runApp jsonParse jwtDecode gunzip osHostname env req).echoLogged = false
    ∧ (runApp jsonParse jwtDecode gunzip osHostname env req).accessLogged = false
    ∧ (runApp jsonParse jwtDecode gunzip osHostname env req).observations = [] := by
  have hr : runApp jsonParse jwtDecode gunzip osHostname env req =
      { ctx := setStatus (ctx0 J W) 204
        setHeaders := corsHeaderList env
        accessLogged := false
        observations := []
        servedMetrics := false
        builtEcho := none
        echoLogged := false } := by
    rw [runApp]
    simp [ho, hm]
  rw [hr]
  refine ⟨rfl, by simp [finalBody, setStatus, ctx0, emptyStatus], ?_, ?_, ?_, ?_,
    rfl, rfl, rfl, rfl⟩
  · simp [corsHeaderList]
  · intro h
    simp [corsHeaderList, optHeader, h]
  · intro h
    simp [corsHeaderList, optHeader, h]
  · intro h
    simp [corsHeaderList, optHeader, h]

/-- The all-defaults application environment fixture. -/
def baseEnv : AppEnv :=
  { disableRequestLogs := false
    logIgnore := none
    echoBackToClient := true
    overrideFilePath := none
    preserveHeaderCase := false
    includeEnvVars := false
    jwtHeader := none
    corsOrigin := none
    corsMethods := none
    corsHeaders := none
    corsCredentials := none
    prometheusEnabled := false
    prometheusPath := "/metrics"
    promWithPath := false
    promWithMethod := true
    promWithStatus := true
    maxBodySize := 1048576
    procEnv := []
    fileExists := fun _ => false
    fileRead := fun _ => "" }

/-- CORS configured with an origin and methods list. -/
def corsEnv : AppEnv :=
  { baseEnv with corsOrigin := some "*", corsMethods := some "GET,POST" }

/-- A preflight request. -/
def reqOptions : Request := { baseReq with method := "OPTIONS" }

/-- Witness for C8 at a concrete preflight request. -/
theorem C8_cors_options_short_circuit_witness :
    (strTruthyO corsEnv.corsOrigin = true
      ∧ reqOptions.method = "OPTIONS")
    ∧ ((runApp noParse noParse idGunzip "srv" corsEnv reqOptions).ctx.status = 204
      ∧ finalBody (runApp noParse noParse idGunzip "srv" corsEnv reqOptions).ctx = .nullB
      ∧ ("Access-Control-Allow-Origin", corsEnv.corsOrigin.getD "")
          ∈ (runApp noParse noParse idGunzip "srv" corsEnv reqOptions).setHeaders
      ∧ (strTruthyO corsEnv.corsMethods = true →
          ("Access-Control-Allow-Methods", corsEnv.corsMethods.getD "")
            ∈ (runApp noParse noParse idGunzip "srv" corsEnv reqOptions).setHeaders)
      ∧ (strTruthyO corsEnv.corsHeaders = true →
          ("Access-Control-Allow-Headers", corsEnv.corsHeaders.getD "")
            ∈ (runApp noParse noParse idGunzip "srv" corsEnv reqOptions).setHeaders)
      ∧ (strTruthyO corsEnv.corsCredentials = true →
          ("Access-Control-Allow-Credentials", corsEnv.corsCredentials.getD "")
            ∈ (runApp noParse noParse idGunzip "srv" corsEnv reqOptions).setHeaders)
      ∧ (runApp noParse noParse idGunzip "srv" corsEnv reqOptions).builtEcho = none
      ∧ (runApp noParse noParse idGunzip "srv" corsEnv reqOptions).echoLogged = false
      ∧ (runApp noParse noParse idGunzip "srv" corsEnv reqOptions).accessLogged = false
      ∧ (runApp noParse noParse idGunzip "srv" corsEnv reqOptions).observations = []) :=
  ⟨⟨rfl, rfl⟩,
    C8_cors_options_short_circuit noParse noParse idGunzip "srv" corsEnv reqOptions
      rfl rfl⟩

/-! ## C9 -/

/-- C9: with Prometheus enabled, a GET request on the configured
scrape path is served by the scrape endpoint and records no histogram
observation, while every other request that reaches the metrics
middleware records exactly one observation carrying the configured
label subset with the final status. -/
theorem C9_scrape_diverted_others_observed {J W : Type}
    (jsonParse : String → Option J) (jwtDecode : String → Option W)
    (gunzip : List String → List String) (osHostname : String)
    (env : AppEnv) (req : Request)
    (hp : env.prometheusEnabled = true) :
    (req.method = "GET" → req.path = env.prometheusPath →
      (runApp jsonParse jwtDecode gunzip osHostname env req).observations = []
      ∧ (runApp jsonParse jwtDecode gunzip osHostname env req).servedMetrics = true
      ∧ (runApp jsonParse jwtDecode gunzip osHostname env req).ctx.body = .metricsText
      ∧ (runApp jsonParse jwtDecode gunzip osHostname env req).builtEcho = none)
    ∧ (¬(req.path = env.prometheusPath ∧ req.method = "GET") →
      ¬(strTruthyO env.corsOrigin = true ∧ req.method = "OPTIONS") →
      (runApp jsonParse jwtDecode gunzip osHostname env req).observations
        = [labelsFor env req
            (runApp jsonParse jwtDecode gunzip osHostname env req).ctx.status]) := by
  constructor
  · intro hm hpath
    have hr : runApp jsonParse jwtDecode gunzip osHostname env req =
        { ctx := setBody (ctx0 J W) .metricsText
          setHeaders := (if strTruthyO env.corsOrigin then corsHeaderList env else [])
            ++ [("Content-Type", promContentType)]
          accessLogged := accessLoggedFor env req
          observations := []
          servedMetrics := true
          builtEcho := none
          echoLogged := false } := by
      rw [runApp]
      simp [hp, hm, hpath]
    rw [hr]
    exact ⟨rfl, rfl, by simp [setBody, ctx0], rfl⟩
  · intro hnp hnc
    have hg1 : (strTruthyO env.corsOrigin && (req.method == "OPTIONS")) = false := by
      cases hco : strTruthyO env.corsOrigin
      · rfl
      · cases hmo : req.method == "OPTIONS"
        · rfl
        · exact absurd ⟨hco, beq_iff_eq.mp hmo⟩ hnc
    have hg2 : (true && (req.path == env.prometheusPath)
        && (req.method == "GET")) = false := by
      cases hpp : req.path == env.prometheusPath
      · simp [hpp]
      · cases hmg : req.method == "GET"
        · simp [hmg]
        · exact absurd ⟨beq_iff_eq.mp hpp, beq_iff_eq.mp hmg⟩ hnp
    rw [runApp]
    simp only [hg1, hg2, Bool.false_eq_true, if_false, hp, if_true]

/-- Prometheus enabled on the default environment. -/
def promEnv : AppEnv := { baseEnv with prometheusEnabled := true }

/-- A scrape request. -/
def reqScrape : Request := { baseReq with method := "GET", path := "/metrics" }

/-- Witness for C9 at a concrete scrape request and a concrete echoed
request. -/
theorem C9_scrape_diverted_others_observed_witness :
    (promEnv.prometheusEnabled = true
      ∧ reqScrape.method = "GET"
      ∧ reqScrape.path = promEnv.prometheusPath
      ∧ (runApp noParse noParse idGunzip "srv" promEnv reqScrape).observations = []
      ∧ (runApp noParse noParse idGunzip "srv" promEnv reqScrape).servedMetrics = true
      ∧ (runApp noParse noParse idGunzip "srv" promEnv reqScrape).ctx.body = .metricsText
      ∧ (runApp noParse noParse idGunzip "srv" promEnv reqScrape).builtEcho = none)
    ∧ ((runApp noParse noParse idGunzip "srv" promEnv baseReq).observations
        = [labelsFor promEnv baseReq
            (runApp noParse noParse idGunzip "srv" promEnv baseReq).ctx.status]) :=
  ⟨⟨rfl, rfl, rfl,
    (C9_scrape_diverted_others_observed noParse noParse idGunzip "srv" promEnv
      reqScrape rfl).1 rfl rfl⟩,
   (C9_scrape_diverted_others_observed noParse noParse idGunzip "srv" promEnv
      baseReq rfl).2 (by decide) (by decide)⟩

/-! ## C10 -/

/-- C10: when the override file path is configured and the file exists
with empty contents, the pre-read override body is the empty string,
which is falsy, so the static-response bypass is not taken: the body
is read and an echo document is built as for any normal request. -/
theorem C10_empty_override_no_bypass {J W : Type} (jsonParse : String → Option J)
    (jwtDecode : String → Option W) (gunzip : List String → List String)
    (osHostname : String) (env : AppEnv) (req : Request) (p : String)
    (hp : env.overrideFilePath = some p)
    (hne : p ≠ "")
    (hex : env.fileExists p = true)
    (hrd : env.fileRead p = "")
    (hcors : ¬(strTruthyO env.corsOrigin = true ∧ req.method = "OPTIONS"))
    (hprom : ¬(env.prometheusEnabled = true ∧ req.path = env.prometheusPath
      ∧ req.method = "GET"))
    (herr : req.streamErr = none)
    (hsz : env.maxBodySize = 0
      ∨ totalLen (effectiveChunks gunzip req) ≤ env.maxBodySize) :
    overrideBodyOf env = some ""
    ∧ ∃ e, (runApp jsonParse jwtDecode gunzip osHostname env req).builtEcho = some e
        ∧ e.body = String.join (effectiveChunks gunzip req) := by
  have hpb : (p != "") = true := by
    simp [bne]
    exact hne
  have hob : overrideBodyOf env = some "" := by
    simp only [overrideBodyOf, hp]
    rw [hpb, hex]
    simp [hrd]
  have hg1 : (strTruthyO env.corsOrigin && (req.method == "OPTIONS")) = false := by
    cases hco : strTruthyO env.corsOrigin
    · rfl
    · cases hmo : req.method == "OPTIONS"
      · rfl
      · exact absurd ⟨hco, beq_iff_eq.mp hmo⟩ hcors
  have hg2 : (env.prometheusEnabled && (req.path == env.prometheusPath)
      && (req.method == "GET")) = false := by
    cases hpe : env.prometheusEnabled
    · rfl
    · cases hpp : req.path == env.prometheusPath
      · simp [hpp]
      · cases hmg : req.method == "GET"
        · simp [hmg]
        · exact absurd ⟨hpe, beq_iff_eq.mp hpp, beq_iff_eq.mp hmg⟩ hprom
  have hov : strTruthyO (envEchoConfig env).overrideResponseBody = false := by
    show strTruthyO (overrideBodyOf env) = false
    rw [hob]
    rfl
  have hrb := readBody_ok (envEchoConfig env).maxBodySize
    (effectiveChunks gunzip req) hsz
  refine ⟨hob, buildEchoDoc jsonParse jwtDecode osHostname (envEchoConfig env) req
    (String.join (effectiveChunks gunzip req)), ?_, rfl⟩
  rw [runApp]
  simp only [hg1, hg2, Bool.false_eq_true, if_false]
  rw [echoHandler, hov, herr, hrb]
  simp

/-- The default environment pointing the override path at an existing
empty file. -/
def emptyOverrideEnv : AppEnv :=
  { baseEnv with
    overrideFilePath := some "/tmp/override.txt"
    fileExists := fun _ => true }

/-- Witness for C10 at a concrete empty override file. -/
theorem C10_empty_override_no_bypass_witness :
    (emptyOverrideEnv.overrideFilePath = some "/tmp/override.txt"
      ∧ "/tmp/override.txt" ≠ ""
      ∧ emptyOverrideEnv.fileExists "/tmp/override.txt" = true
      ∧ emptyOverrideEnv.fileRead "/tmp/override.txt" = "")
    ∧ (overrideBodyOf emptyOverrideEnv = some ""
      ∧ ∃ e, (runApp noParse noParse idGunzip "srv" emptyOverrideEnv baseReq).builtEcho
            = some e
          ∧ e.body = String.join (effectiveChunks idGunzip baseReq)) :=
  ⟨⟨rfl, by decide, rfl, rfl⟩,
    C10_empty_override_no_bypass noParse noParse idGunzip "srv" emptyOverrideEnv
      baseReq "/tmp/override.txt" rfl (by decide) rfl rfl (by decide) (by decide)
      rfl (Or.inr (by decide))⟩

end HelloHttp
